import Mathlib

/-!
Verification of the usbfs crate: a shallow embedding of its data model and
operations (usbtypes.rs, devfs.rs, monotransfer.rs, stdbuftransfer.rs,
isobuftransfer.rs, asyncdevice.rs, device.rs), with theorems about the
behaviour documented for the crate.

Machine integers are modelled as `Nat`/`Int`; a Rust `as u16` / `as i32`
conversion is modelled with an explicit truncation.  Host endianness is a
`Bool` parameter (`hostBE`): Rust's `uN::to_le`/`uN::from_le` are identities
on a little-endian host and byte swaps on a big-endian host.  Panics are
modelled by `Option`: a function that can panic returns `none` exactly on
the inputs where the Rust code panics.
-/

namespace Usbfs

/-! ## usbtypes.rs: endianness helpers and the Setup packet -/

/-- Byte swap of a 16-bit value, the meaning of `u16::to_le`/`u16::from_le`
on a big-endian host. -/
def bswap16 (v : Nat) : Nat := v % 256 * 256 + v / 256 % 256

/-- Rust `u16::to_le`: identity on a little-endian host, byte swap on big-endian. -/
def u16_to_le (hostBE : Bool) (v : Nat) : Nat := if hostBE then bswap16 v else v

/-- Rust `u16::from_le`: identity on a little-endian host, byte swap on big-endian. -/
def u16_from_le (hostBE : Bool) (v : Nat) : Nat := if hostBE then bswap16 v else v

/-- Rust `u8::to_le` is the identity on every host. -/
def u8_to_le (v : Nat) : Nat := v

/-- Rust `u8::from_le` is the identity on every host. -/
def u8_from_le (v : Nat) : Nat := v

/-- Rust `SetupDirection`: control request direction, part of `Setup.bmRequestType`. -/
inductive SetupDirection
  | HostToDevice
  | DeviceToHost
  deriving DecidableEq, Repr

/-- The `u8` discriminant of `SetupDirection` (`HostToDevice = 0`,
`DeviceToHost = 1 << 7`). -/
def SetupDirection.code : SetupDirection → Nat
  | .HostToDevice => 0
  | .DeviceToHost => 128

/-- Rust `SetupType`: control request type, part of `Setup.bmRequestType`. -/
inductive SetupType
  | Standard
  | Class
  | Vendor
  deriving DecidableEq, Repr

/-- The `u8` discriminant of `SetupType` (`Standard = 0 << 5`, `Class = 1 << 5`,
`Vendor = 2 << 5`). -/
def SetupType.code : SetupType → Nat
  | .Standard => 0
  | .Class => 32
  | .Vendor => 64

/-- Rust `SetupRecipient`: control request recipient, part of `Setup.bmRequestType`. -/
inductive SetupRecipient
  | Device
  | Interface
  | Endpoint
  | Other
  deriving DecidableEq, Repr

/-- The `u8` discriminant of `SetupRecipient`. -/
def SetupRecipient.code : SetupRecipient → Nat
  | .Device => 0
  | .Interface => 1
  | .Endpoint => 2
  | .Other => 3

/-- The USB Setup packet (`struct Setup<E>` in usbtypes.rs); the endian marker
is tracked by how values are produced, the field contents are `Nat`. -/
structure Setup where
  bmRequestType : Nat
  bRequest : Nat
  wValue : Nat
  wIndex : Nat
  wLength : Nat
  deriving DecidableEq, Repr

/-- Rust `Setup::new`: construct a native-endian Setup packet, combining direction,
type and recipient into `bmRequestType` by bitwise or. -/
def Setup.new (d : SetupDirection) (t : SetupType) (r : SetupRecipient)
    (request value index length : Nat) : Setup :=
  { bmRequestType := d.code ||| t.code ||| r.code
    bRequest := request
    wValue := value
    wIndex := index
    wLength := length }

/-- Rust `From<Setup<NativeEndian>> for Setup<BusEndian>`: apply `to_le` to each
field. -/
def Setup.toBusEndian (hostBE : Bool) (s : Setup) : Setup :=
  { bmRequestType := u8_to_le s.bmRequestType
    bRequest := u8_to_le s.bRequest
    wValue := u16_to_le hostBE s.wValue
    wIndex := u16_to_le hostBE s.wIndex
    wLength := u16_to_le hostBE s.wLength }

/-- Field-by-field conversion of a bus-endian Setup back to native endian
through the explicit byte-order functions (`u8::from_le` / `u16::from_le`). -/
def Setup.fromBusEndianFields (hostBE : Bool) (s : Setup) : Setup :=
  { bmRequestType := u8_from_le s.bmRequestType
    bRequest := u8_from_le s.bRequest
    wValue := u16_from_le hostBE s.wValue
    wIndex := u16_from_le hostBE s.wIndex
    wLength := u16_from_le hostBE s.wLength }

theorem bswap16_involutive (v : Nat) (h : v < 65536) : bswap16 (bswap16 v) = v := by
  have hb : v / 256 < 256 := by omega
  have hx : bswap16 v = v % 256 * 256 + v / 256 := by
    unfold bswap16
    rw [Nat.mod_eq_of_lt hb]
  rw [hx]
  unfold bswap16
  have h1 : (v % 256 * 256 + v / 256) % 256 = v / 256 := by omega
  have h2 : (v % 256 * 256 + v / 256) / 256 = v % 256 := by omega
  rw [h1, h2]
  omega

theorem u16_roundtrip (hostBE : Bool) (v : Nat) (h : v < 65536) :
    u16_from_le hostBE (u16_to_le hostBE v) = v := by
  cases hostBE with
  | false => rfl
  | true => exact bswap16_involutive v h

/-- C9: a native-endian Setup built by `Setup::new` from direction, type,
recipient, request, value, index and length, converted to the bus-endian
representation and back field by field through the explicit byte-order
functions, reproduces the original value of every field. -/
theorem setup_endian_roundtrip (hostBE : Bool) (d : SetupDirection) (t : SetupType)
    (r : SetupRecipient) (request value index length : Nat)
    (hv : value < 65536) (hi : index < 65536) (hl : length < 65536) :
    Setup.fromBusEndianFields hostBE
      (Setup.toBusEndian hostBE (Setup.new d t r request value index length))
      = Setup.new d t r request value index length := by
  have hv2 := u16_roundtrip hostBE value hv
  have hi2 := u16_roundtrip hostBE index hi
  have hl2 := u16_roundtrip hostBE length hl
  simp [Setup.fromBusEndianFields, Setup.toBusEndian, Setup.new, u8_from_le, u8_to_le,
    hv2, hi2, hl2]

/-- Witness for C9 at a concrete input on both host endiannesses. -/
theorem setup_endian_roundtrip_witness :
    Setup.fromBusEndianFields true
      (Setup.toBusEndian true
        (Setup.new .DeviceToHost .Vendor .Interface 3 0x1234 7 16))
      = Setup.new .DeviceToHost .Vendor .Interface 3 0x1234 7 16 :=
  setup_endian_roundtrip true .DeviceToHost .Vendor .Interface 3 0x1234 7 16
    (by decide) (by decide) (by decide)

/-! ## devfs.rs: Urb, UrbType and IsoPacketDesc -/

/-- Truncation of a natural number to a 32-bit signed value (Rust `as i32`). -/
def wrap32 (n : Nat) : Int := ((n : Int) + 2 ^ 31) % 2 ^ 32 - 2 ^ 31

/-- Truncation of a natural number to 16 bits (Rust `as u16`). -/
def wrap16 (n : Nat) : Nat := n % 65536

/-- Rust `UrbType`: the type tag of an URB. -/
inductive UrbType
  | Iso
  | Interrupt
  | Control
  | Bulk
  deriving DecidableEq, Repr

/-- The `u8` discriminant of `UrbType` (`Iso = 0`, `Interrupt = 1`,
`Control = 2`, `Bulk = 3`). -/
def UrbType.code : UrbType → Nat
  | .Iso => 0
  | .Interrupt => 1
  | .Control => 2
  | .Bulk => 3

/-- Rust `struct usbdevfs_iso_packet_desc` (IsoPacketDesc in devfs.rs). -/
structure IsoPacketDesc where
  length : Int
  actual_length : Int
  status : Int
  deriving DecidableEq, Repr

/-- Rust `Default for IsoPacketDesc`: zero lengths, status `-22` (`-EINVAL`). -/
def IsoPacketDesc.default : IsoPacketDesc :=
  { length := 0, actual_length := 0, status := -22 }

/-- Rust `struct Urb` (devfs.rs).  The raw buffer pointer is modelled by the list of
bytes it points at; flags are the raw bit set. -/
structure Urb where
  urbtype : Nat
  endpoint : Nat
  status : Int
  flags : Nat
  buffer : List Nat
  buffer_length : Int
  actual_length : Int
  start_frame : Int
  number_of_packets : Int
  error_count : Int
  signr : Nat
  usercontext : Nat
  deriving DecidableEq, Repr

/-- Rust `Default for Urb`: Control type, status `-22`, everything else zero. -/
def Urb.default : Urb :=
  { urbtype := UrbType.Control.code
    endpoint := 0
    status := -22
    flags := 0
    buffer := []
    buffer_length := 0
    actual_length := 0
    start_frame := 0
    number_of_packets := 0
    error_count := 0
    signr := 0
    usercontext := 0 }

/-! ## isobuftransfer.rs: IsoBufTransfer and the windowing loop -/

/-- Rust `MAX_ISO_PACKETS`, the fixed capacity of the descriptor array. -/
def MAX_ISO_PACKETS : Nat := 32

/-- The descriptor-initialisation loop of `IsoBufTransfer::wire_urb`: walk the
descriptor array (the fuel is the number of descriptors still available),
breaking when the remaining length reaches zero; each visited descriptor gets
`length = min(remaining, packetLen) as i32`, `actual_length = 0`,
`status = -22`.  Returns the list of descriptors that were initialised. -/
def isoWindowLoop : Nat → Nat → Nat → List IsoPacketDesc
  | 0, _, _ => []
  | fuel + 1, totLength, packetLen =>
    if totLength = 0 then []
    else
      let limited := min totLength packetLen
      { length := wrap32 limited, actual_length := 0, status := -22 } ::
        isoWindowLoop fuel (totLength - limited) packetLen

/-- Rust `struct IsoBufTransfer<B>`: an URB, the descriptor array and the buffer.
`packetLength` is what the buffer's `IsoBuffer::packet_length()` reports. -/
structure IsoBufTransfer where
  urb : Urb
  iso_packets : List IsoPacketDesc
  buf : List Nat
  packetLength : Nat
  deriving DecidableEq, Repr

/-- Rust `IsoBufTransfer::isochronous`: Iso-type URB with default descriptors. -/
def IsoBufTransfer.isochronous (endpoint flags : Nat) (buf : List Nat)
    (packetLength : Nat) : IsoBufTransfer :=
  { urb :=
      { Urb.default with
        urbtype := UrbType.Iso.code
        endpoint := endpoint
        flags := flags }
    iso_packets := List.replicate MAX_ISO_PACKETS IsoPacketDesc.default
    buf := buf
    packetLength := packetLength }

/-- Rust `IsoBufTransfer::wire_urb`: initialise a prefix of the descriptor array via
the windowing loop, point the URB at the buffer and record the number of
initialised packets in `number_of_packets`. -/
def IsoBufTransfer.wire_urb (t : IsoBufTransfer) : IsoBufTransfer :=
  let inited := isoWindowLoop t.iso_packets.length t.buf.length t.packetLength
  { t with
    iso_packets := inited ++ t.iso_packets.drop inited.length
    urb :=
      { t.urb with
        buffer := t.buf
        number_of_packets := (inited.length : Int) } }

theorem isoWindowLoop_length (P : Nat) (hP : 0 < P) :
    ∀ fuel L, (isoWindowLoop fuel L P).length = min ((L + P - 1) / P) fuel := by
  intro fuel
  induction fuel with
  | zero => intro L; simp [isoWindowLoop]
  | succ n ih =>
    intro L
    by_cases hL : L = 0
    · subst hL
      have h0 : (P - 1) / P = 0 := Nat.div_eq_of_lt (by omega)
      simp [isoWindowLoop, h0]
    · rw [isoWindowLoop, if_neg hL]
      simp only [List.length_cons, ih]
      have hstep : (L + P - 1) / P = (L - min L P + P - 1) / P + 1 := by
        by_cases hLP : L ≤ P
        · have hmin : min L P = L := min_eq_left hLP
          rw [hmin]
          have hsub : L - L = 0 := Nat.sub_self L
          rw [hsub]
          have h1 : (L + P - 1) / P = 1 := by
            apply Nat.div_eq_of_lt_le
            · omega
            · omega
          have h0 : (0 + P - 1) / P = 0 := Nat.div_eq_of_lt (by omega)
          rw [h1, h0]
        · have hmin : min L P = P := min_eq_right (by omega)
          rw [hmin]
          have h1 : L - P + P - 1 = L - 1 := by omega
          have h2 : L + P - 1 = (L - 1) + P := by omega
          rw [h1, h2, Nat.add_div_right _ hP]
      rw [hstep]
      omega

theorem isoWindowLoop_get? (P : Nat) :
    ∀ fuel L i, i < (isoWindowLoop fuel L P).length →
      (isoWindowLoop fuel L P).get? i =
        some { length := wrap32 (min (L - i * P) P), actual_length := 0,
               status := -22 } := by
  intro fuel
  induction fuel with
  | zero => intro L i hi; simp [isoWindowLoop] at hi
  | succ n ih =>
    intro L i hi
    by_cases hL : L = 0
    · subst hL; simp [isoWindowLoop] at hi
    · rw [isoWindowLoop, if_neg hL] at hi ⊢
      match i with
      | 0 =>
        simp only [List.get?]
        have : min (L - 0 * P) P = min L P := by simp
        rw [this]
      | i + 1 =>
        simp only [List.get?, List.length_cons] at hi ⊢
        have hi2 : i < (isoWindowLoop n (L - min L P) P).length := by omega
        rw [ih (L - min L P) i hi2]
        have harg : L - min L P - i * P = L - (i + 1) * P := by
          by_cases hLP : L ≤ P
          · have hmin : min L P = L := min_eq_left hLP
            rw [hmin] at hi2 ⊢
            rw [Nat.sub_self] at hi2
            exfalso
            have : (isoWindowLoop n 0 P).length = 0 := by
              cases n <;> simp [isoWindowLoop]
            omega
          · have hmin : min L P = P := min_eq_right (by omega)
            rw [hmin]
            have hmul : (i + 1) * P = i * P + P := by ring
            omega
        rw [harg]

theorem wrap32_eq_of_lt (n : Nat) (h : n < 2 ^ 31) : wrap32 n = (n : Int) := by
  unfold wrap32
  omega

/-- C2 (amended): for an `IsoBufTransfer` over a buffer of length `L` whose
`IsoBuffer` reports per-packet capacity `P` with `0 < P < 2^31`, `wire_urb`
initialises exactly `min(⌈L/P⌉, 32)` packet descriptors, the descriptor array
keeps its 32 slots (bytes beyond what the initialised descriptors cover get no
descriptor, and no error is raised), `number_of_packets` is set to that count,
and the `i`-th initialised descriptor has length `min(L − i·P, P)` with
`actual_length` reset to `0` and `status` to the sentinel `-22`. -/
theorem iso_wire_urb_spec (ep fl P : Nat) (buf : List Nat)
    (hP : 0 < P) (hP31 : P < 2 ^ 31) :
    (IsoBufTransfer.isochronous ep fl buf P).wire_urb.urb.number_of_packets
        = ((min ((buf.length + P - 1) / P) 32 : Nat) : Int)
    ∧ min ((buf.length + P - 1) / P) 32 ≤ 32
    ∧ (IsoBufTransfer.isochronous ep fl buf P).wire_urb.iso_packets.length = 32
    ∧ ∀ i, i < min ((buf.length + P - 1) / P) 32 →
        (IsoBufTransfer.isochronous ep fl buf P).wire_urb.iso_packets.get? i
          = some { length := ((min (buf.length - i * P) P : Nat) : Int)
                   actual_length := 0
                   status := -22 } := by
  have hlen32 : (List.replicate MAX_ISO_PACKETS IsoPacketDesc.default).length
      = 32 := by simp [MAX_ISO_PACKETS]
  have hinlen : (isoWindowLoop 32 buf.length P).length
      = min ((buf.length + P - 1) / P) 32 := isoWindowLoop_length P hP 32 buf.length
  refine ⟨?_, ?_, ?_, ?_⟩
  · simp only [IsoBufTransfer.wire_urb, IsoBufTransfer.isochronous, hlen32]
    rw [hinlen]
  · exact min_le_right _ _
  · simp only [IsoBufTransfer.wire_urb, IsoBufTransfer.isochronous, hlen32]
    simp only [List.length_append, List.length_drop, hlen32]
    omega
  · intro i hi
    simp only [IsoBufTransfer.wire_urb, IsoBufTransfer.isochronous, hlen32]
    rw [List.get?_append (by omega)]
    rw [isoWindowLoop_get? P 32 buf.length i (by omega)]
    have hub : min (buf.length - i * P) P < 2 ^ 31 := by
      have := min_le_right (buf.length - i * P) P
      omega
    rw [wrap32_eq_of_lt _ hub]

/-- Witness for C2: the spec's own example, buffer length 2304 with packet
capacity 256 gives `number_of_packets = 9`. -/
theorem iso_wire_urb_spec_witness :
    ((0 : Nat) < 256 ∧ (256 : Nat) < 2 ^ 31)
    ∧ (IsoBufTransfer.wire_urb (IsoBufTransfer.isochronous 0 0 (List.replicate 2304 0) 256)).urb.number_of_packets = 9 := by
  refine ⟨⟨by norm_num, by norm_num⟩, ?_⟩
  have h := (iso_wire_urb_spec 0 0 256 (List.replicate 2304 0)
    (by norm_num) (by norm_num)).1
  simp only [List.length_replicate] at h
  rw [h]
  norm_num

/-- Counterexample to C2 as stated: with `L = P = 2^31` the lone initialised
descriptor's length is the wrapped value `-2^31`, not `min(L − 0·P, P) = 2^31`:
the claim omits the 32-bit truncation of the descriptor length. -/
theorem iso_wire_urb_claim_cex :
    (IsoBufTransfer.wire_urb (IsoBufTransfer.isochronous 0 0 (List.replicate (2 ^ 31) 0) (2 ^ 31))).iso_packets.get? 0
      = some { length := -(2 ^ 31), actual_length := 0, status := -22 }
    ∧ (-(2 ^ 31) : Int)
        ≠ ((min ((List.replicate (2 ^ 31) (0 : Nat)).length - 0 * 2 ^ 31)
            (2 ^ 31) : Nat) : Int) := by
  have hlen32 : (List.replicate MAX_ISO_PACKETS IsoPacketDesc.default).length
      = 32 := by rw [List.length_replicate, MAX_ISO_PACKETS]
  have hL : (List.replicate (2 ^ 31) (0 : Nat)).length = 2 ^ 31 := by
    rw [List.length_replicate]
  have hinlen : (isoWindowLoop 32 (2 ^ 31) (2 ^ 31)).length
      = min ((2 ^ 31 + 2 ^ 31 - 1) / 2 ^ 31) 32 :=
    isoWindowLoop_length (2 ^ 31) (by norm_num) 32 (2 ^ 31)
  have hone : ((2 : Nat) ^ 31 + 2 ^ 31 - 1) / 2 ^ 31 = 1 := by norm_num
  have hpos : 0 < (isoWindowLoop 32 (2 ^ 31) (2 ^ 31)).length := by
    rw [hinlen, hone]
    norm_num
  constructor
  · simp only [IsoBufTransfer.wire_urb, IsoBufTransfer.isochronous, hlen32, hL]
    rw [List.get?_append hpos]
    rw [isoWindowLoop_get? (2 ^ 31) 32 (2 ^ 31) 0 hpos]
    have hmin0 : min (2 ^ 31 - 0 * 2 ^ 31) (2 ^ 31) = (2 ^ 31 : Nat) := by
      norm_num
    rw [hmin0]
    have hw : wrap32 (2 ^ 31) = -(2 ^ 31) := by
      unfold wrap32
      norm_num
    rw [hw]
  · rw [hL]
    norm_num

/-! ## Setup-packet serialization into buffers

The Rust code copies the `repr(C)` `Setup<BusEndian>` struct byte-for-byte
into the first 8 bytes of the buffer.  `u16MemBytes` gives the host-memory
bytes of a `u16` struct field; `setupMemBytes` the 8 memory bytes of the
struct.  `le16`/`setupBytesLE` are the little-endian (bus-order) byte views. -/

/-- Host-memory bytes of a `u16` struct field. -/
def u16MemBytes (hostBE : Bool) (v : Nat) : List Nat :=
  if hostBE then [v / 256 % 256, v % 256] else [v % 256, v / 256 % 256]

/-- The 8 host-memory bytes of a `repr(C)` `Setup` struct. -/
def setupMemBytes (hostBE : Bool) (s : Setup) : List Nat :=
  [s.bmRequestType % 256, s.bRequest % 256]
    ++ u16MemBytes hostBE s.wValue ++ u16MemBytes hostBE s.wIndex
    ++ u16MemBytes hostBE s.wLength

/-- Little-endian byte pair of a 16-bit value. -/
def le16 (v : Nat) : List Nat := [v % 256, v / 256 % 256]

/-- The bus-endian (little-endian) 8-byte serialization of a native Setup. -/
def setupBytesLE (s : Setup) : List Nat :=
  [s.bmRequestType % 256, s.bRequest % 256]
    ++ le16 s.wValue ++ le16 s.wIndex ++ le16 s.wLength

theorem u16MemBytes_to_le (hostBE : Bool) (v : Nat) :
    u16MemBytes hostBE (u16_to_le hostBE v) = le16 v := by
  cases hostBE with
  | false => rfl
  | true =>
    unfold u16MemBytes u16_to_le bswap16 le16
    simp only [if_pos]
    have ha : v % 256 < 256 := Nat.mod_lt _ (by norm_num)
    have h1 : (v % 256 * 256 + v / 256 % 256) / 256 = v % 256 := by omega
    have h2 : (v % 256 * 256 + v / 256 % 256) % 256 = v / 256 % 256 := by omega
    rw [h1, h2, Nat.mod_eq_of_lt ha]

/-- Copying the bus-endian struct into memory writes exactly the little-endian
serialization of the native field values, on either host endianness. -/
theorem setupMemBytes_toBusEndian (hostBE : Bool) (s : Setup) :
    setupMemBytes hostBE (Setup.toBusEndian hostBE s) = setupBytesLE s := by
  unfold setupMemBytes Setup.toBusEndian setupBytesLE u8_to_le
  rw [u16MemBytes_to_le, u16MemBytes_to_le, u16MemBytes_to_le]

theorem requestTypeByte_lt (d : SetupDirection) (t : SetupType) (r : SetupRecipient) :
    d.code ||| t.code ||| r.code < 256 := by
  cases d <;> cases t <;> cases r <;> decide

/-! ## monotransfer.rs: ControlTransferMut, BulkTransfer, InterruptTransfer -/

/-- Rust `struct ControlTransferMut<B>`: URB, stored bus-endian setup, buffer. -/
structure ControlTransferMut where
  urb : Urb
  setup : Setup
  buf : List Nat
  deriving DecidableEq, Repr

/-- Rust `ControlTransferMut::new`: build the bus-endian setup with `wLength = 0`
(set at wire time) and a Control-type URB on endpoint 0. -/
def ControlTransferMut.new (hostBE : Bool) (d : SetupDirection) (t : SetupType)
    (r : SetupRecipient) (request value index flags : Nat) (buf : List Nat) :
    ControlTransferMut :=
  { setup := Setup.toBusEndian hostBE (Setup.new d t r request value index 0)
    urb :=
      { Urb.default with
        urbtype := UrbType.Control.code
        endpoint := 0
        flags := flags }
    buf := buf }

/-- Rust `ControlTransferMut::wire_urb`: panics (`none`) when the buffer is shorter
than 8 bytes; otherwise sets `wLength` to `(len - 8) as u16` (bus-endian),
copies the setup struct into the first 8 buffer bytes, and points the URB at
the buffer with `buffer_length = len as i32`. -/
def ControlTransferMut.wire_urb (hostBE : Bool) (t : ControlTransferMut) :
    Option ControlTransferMut :=
  if t.buf.length < 8 then none
  else
    let setup2 := { t.setup with wLength := u16_to_le hostBE (wrap16 (t.buf.length - 8)) }
    let buf2 := setupMemBytes hostBE setup2 ++ t.buf.drop 8
    some
      { urb :=
          { t.urb with
            buffer := buf2
            buffer_length := wrap32 t.buf.length }
        setup := setup2
        buf := buf2 }

/-- Rust `struct BulkTransfer<B>` (immutable buffer, OUT only). -/
structure BulkTransfer where
  urb : Urb
  buf : List Nat
  deriving DecidableEq, Repr

/-- Rust `BulkTransfer::new`: asserts the endpoint is not an IN endpoint
(`0 == endpoint & 0x80`), panicking (`none`) otherwise. -/
def BulkTransfer.new (endpoint flags : Nat) (buf : List Nat) : Option BulkTransfer :=
  if endpoint &&& 128 = 0 then
    some
      { urb :=
          { Urb.default with
            urbtype := UrbType.Bulk.code
            endpoint := endpoint
            flags := flags }
        buf := buf }
  else none

/-- Rust `struct BulkTransferMut<B>` (mutable buffer, IN and OUT). -/
structure BulkTransferMut where
  urb : Urb
  buf : List Nat
  deriving DecidableEq, Repr

/-- Rust `BulkTransferMut::new`: no endpoint assertion, always succeeds. -/
def BulkTransferMut.new (endpoint flags : Nat) (buf : List Nat) : BulkTransferMut :=
  { urb :=
      { Urb.default with
        urbtype := UrbType.Bulk.code
        endpoint := endpoint
        flags := flags }
    buf := buf }

/-- Rust `struct InterruptTransfer<B>` (immutable buffer, OUT only). -/
structure InterruptTransfer where
  urb : Urb
  buf : List Nat
  deriving DecidableEq, Repr

/-- Rust `InterruptTransfer::new`: asserts the endpoint is not an IN endpoint
(`0 == endpoint & 0x80`), panicking (`none`) otherwise. -/
def InterruptTransfer.new (endpoint flags : Nat) (buf : List Nat) :
    Option InterruptTransfer :=
  if endpoint &&& 128 = 0 then
    some
      { urb :=
          { Urb.default with
            urbtype := UrbType.Interrupt.code
            endpoint := endpoint
            flags := flags }
        buf := buf }
  else none

/-- Rust `struct InterruptTransferMut<B>` (mutable buffer, IN and OUT). -/
structure InterruptTransferMut where
  urb : Urb
  buf : List Nat
  deriving DecidableEq, Repr

/-- Rust `InterruptTransferMut::new`: no endpoint assertion, always succeeds. -/
def InterruptTransferMut.new (endpoint flags : Nat) (buf : List Nat) :
    InterruptTransferMut :=
  { urb :=
      { Urb.default with
        urbtype := UrbType.Interrupt.code
        endpoint := endpoint
        flags := flags }
    buf := buf }

/-! ## stdbuftransfer.rs: StdBufTransfer and write_setup_struct -/

/-- Rust `write_setup_struct`: copy the 8-byte bus-endian setup struct into the
start of the buffer, panicking (`none`) if the buffer is shorter than 8. -/
def write_setup_struct (hostBE : Bool) (setup : Setup) (buf : List Nat) :
    Option (List Nat) :=
  if buf.length < 8 then none
  else some (setupMemBytes hostBE setup ++ buf.drop 8)

/-- Rust `struct StdBufTransfer<B>`: URB, a one-element descriptor array, buffer. -/
structure StdBufTransfer where
  urb : Urb
  iso_packet0 : IsoPacketDesc
  buf : List Nat
  deriving DecidableEq, Repr

/-- Rust `StdBufTransfer::control`: Control-type URB with `endpoint = direction`,
panicking (`none`) when the buffer is shorter than 8 bytes, otherwise writing
the bus-endian setup (with `wLength = (len - 8) as u16`) into the buffer. -/
def StdBufTransfer.control (hostBE : Bool) (d : SetupDirection) (t : SetupType)
    (r : SetupRecipient) (request value index flags : Nat) (buf : List Nat) :
    Option StdBufTransfer :=
  let xfer : StdBufTransfer :=
    { urb :=
        { Urb.default with
          urbtype := UrbType.Control.code
          endpoint := d.code
          flags := flags }
      iso_packet0 := IsoPacketDesc.default
      buf := buf }
  if xfer.buf.length < 8 then none
  else
    let setup := Setup.new d t r request value index (wrap16 (xfer.buf.length - 8))
    (write_setup_struct hostBE (Setup.toBusEndian hostBE setup) xfer.buf).map
      (fun b => { xfer with buf := b })

/-- Rust `StdBufTransfer::wire_urb`: for Iso URBs point the URB at the buffer and
set the single descriptor's length; otherwise set the URB's buffer and
`buffer_length`. -/
def StdBufTransfer.wire_urb (t : StdBufTransfer) : StdBufTransfer :=
  if t.urb.urbtype = UrbType.Iso.code then
    { t with
      urb := { t.urb with buffer := t.buf }
      iso_packet0 := { t.iso_packet0 with length := wrap32 t.buf.length } }
  else
    { t with
      urb :=
        { t.urb with
          buffer := t.buf
          buffer_length := wrap32 t.buf.length } }

theorem setupMemBytes_length (hostBE : Bool) (s : Setup) :
    (setupMemBytes hostBE s).length = 8 := by
  cases hostBE <;> simp [setupMemBytes, u16MemBytes]

theorem wire_buf_parts (hostBE : Bool) (s2 : Setup) (buf : List Nat)
    (h8 : 8 ≤ buf.length) :
    (setupMemBytes hostBE s2 ++ buf.drop 8).take 8 = setupMemBytes hostBE s2
    ∧ (setupMemBytes hostBE s2 ++ buf.drop 8).drop 8 = buf.drop 8
    ∧ (setupMemBytes hostBE s2 ++ buf.drop 8).length = buf.length := by
  have hlen := setupMemBytes_length hostBE s2
  refine ⟨?_, ?_, ?_⟩
  · rw [← hlen, List.take_left]
  · rw [← hlen, List.drop_left]
  · rw [List.length_append, List.length_drop, hlen]
    omega

/-- C3 (amended): for a control transfer over a buffer of length `L` with
`8 ≤ L ≤ 65543` (so that `L − 8` fits the 16-bit `wLength`):
`ControlTransferMut::wire_urb` serializes the 8-byte setup packet in bus-endian
(little-endian) order into the first 8 buffer bytes with `wLength = L − 8`,
leaves the payload untouched, and points the URB at the buffer start with
buffer length `L`; the written request-type byte is the bitwise or of the
direction, type and recipient codes.  `StdBufTransfer::control` writes the
same serialization at construction, and its `wire_urb` points the URB at the
buffer start with buffer length `L`. -/
theorem control_wire_framing (hostBE : Bool) (d : SetupDirection) (ty : SetupType)
    (r : SetupRecipient) (request value index flags : Nat) (buf : List Nat)
    (h8 : 8 ≤ buf.length) (hcap : buf.length ≤ 65543) :
    (∃ t2, ControlTransferMut.wire_urb hostBE
        (ControlTransferMut.new hostBE d ty r request value index flags buf) = some t2
      ∧ t2.buf.take 8
          = setupBytesLE (Setup.new d ty r request value index (buf.length - 8))
      ∧ t2.buf.drop 8 = buf.drop 8
      ∧ t2.buf.length = buf.length
      ∧ t2.urb.buffer = t2.buf
      ∧ t2.urb.buffer_length = (buf.length : Int)
      ∧ u16_from_le hostBE t2.setup.wLength = buf.length - 8
      ∧ t2.buf.get? 0 = some (d.code ||| ty.code ||| r.code))
    ∧ (∃ x, StdBufTransfer.control hostBE d ty r request value index flags buf = some x
      ∧ x.buf.take 8
          = setupBytesLE (Setup.new d ty r request value index (buf.length - 8))
      ∧ x.buf.drop 8 = buf.drop 8
      ∧ x.buf.length = buf.length
      ∧ x.wire_urb.urb.buffer = x.buf
      ∧ x.wire_urb.urb.buffer_length = (buf.length : Int)) := by
  have hw16 : wrap16 (buf.length - 8) = buf.length - 8 := by
    unfold wrap16
    omega
  have hw32 : wrap32 buf.length = (buf.length : Int) :=
    wrap32_eq_of_lt _ (by omega)
  constructor
  · have hsetup2 :
        { Setup.toBusEndian hostBE (Setup.new d ty r request value index 0) with
          wLength := u16_to_le hostBE (wrap16 (buf.length - 8)) }
        = Setup.toBusEndian hostBE
            (Setup.new d ty r request value index (buf.length - 8)) := by
      rw [hw16]
      rfl
    rw [ControlTransferMut.wire_urb, ControlTransferMut.new]
    simp only [if_neg (by omega : ¬ buf.length < 8)]
    refine ⟨_, rfl, ?_, ?_, ?_, rfl, ?_, ?_, ?_⟩
    · simp only [hsetup2]
      rw [(wire_buf_parts hostBE _ buf h8).1, setupMemBytes_toBusEndian]
    · simp only [hsetup2]
      exact (wire_buf_parts hostBE _ buf h8).2.1
    · simp only [hsetup2]
      exact (wire_buf_parts hostBE _ buf h8).2.2
    · exact hw32
    · simp only [hw16]
      exact u16_roundtrip hostBE _ (by omega)
    · simp only [hsetup2]
      have h0 : ((setupMemBytes hostBE
          (Setup.toBusEndian hostBE
            (Setup.new d ty r request value index (buf.length - 8))))
          ++ buf.drop 8).get? 0
          = (setupMemBytes hostBE
              (Setup.toBusEndian hostBE
                (Setup.new d ty r request value index (buf.length - 8)))).get? 0 :=
        List.get?_append (by rw [setupMemBytes_length]; omega)
      rw [h0, setupMemBytes_toBusEndian]
      have hlt := requestTypeByte_lt d ty r
      simp [setupBytesLE, Setup.new, Nat.mod_eq_of_lt hlt]
  · rw [StdBufTransfer.control]
    simp only [if_neg (by omega : ¬ buf.length < 8)]
    rw [write_setup_struct]
    simp only [if_neg (by omega : ¬ buf.length < 8), Option.map_some]
    refine ⟨_, rfl, ?_, ?_, ?_, ?_, ?_⟩
    · simp only [hw16]
      rw [(wire_buf_parts hostBE _ buf h8).1, setupMemBytes_toBusEndian]
    · exact (wire_buf_parts hostBE _ buf h8).2.1
    · exact (wire_buf_parts hostBE _ buf h8).2.2
    · rw [StdBufTransfer.wire_urb]
      simp only [if_neg (by simp [UrbType.code] : ¬ UrbType.Control.code = UrbType.Iso.code)]
    · rw [StdBufTransfer.wire_urb]
      simp only [if_neg (by simp [UrbType.code] : ¬ UrbType.Control.code = UrbType.Iso.code)]
      rw [(wire_buf_parts hostBE _ buf h8).2.2, hw32]

/-- Witness for C3: the spec's example — direction DeviceToHost, type Vendor,
recipient Interface, request 3, buffer length 24 — gives request-type byte
`0xC1` and `wLength = 16`. -/
theorem control_wire_framing_witness :
    (8 ≤ (List.replicate 24 (0 : Nat)).length
      ∧ (List.replicate 24 (0 : Nat)).length ≤ 65543)
    ∧ (∃ t2, ControlTransferMut.wire_urb false
        (ControlTransferMut.new false .DeviceToHost .Vendor .Interface 3 0 0 0
          (List.replicate 24 0)) = some t2
      ∧ t2.buf.get? 0 = some 0xC1
      ∧ u16_from_le false t2.setup.wLength = 16) := by
  refine ⟨⟨by simp, by simp⟩, ?_⟩
  obtain ⟨t2, h1, h2, h3, h4, h5, h6, h7, h8⟩ :=
    (control_wire_framing false .DeviceToHost .Vendor .Interface 3 0 0 0
      (List.replicate 24 0) (by simp) (by simp)).1
  refine ⟨t2, h1, ?_, ?_⟩
  · rw [h8]
    decide
  · rw [h7]
    simp

/-- Counterexample to C3 as stated: over a buffer of length `L = 65544`
the code writes `(L − 8) as u16 = 0` into `wLength`, not the payload length
`L − 8 = 65536`: the claim omits the 16-bit truncation of the length field. -/
theorem control_wire_urb_claim_cex :
    Option.map (fun t => u16_from_le false t.setup.wLength)
      (ControlTransferMut.wire_urb false
        (ControlTransferMut.new false .DeviceToHost .Vendor .Interface 3 0 0 0
          (List.replicate 65544 0))) = some 0
    ∧ (65544 : Nat) - 8 ≠ 0 := by
  constructor
  · have key : ∀ b : List Nat, b.length = 65544 →
        Option.map (fun t => u16_from_le false t.setup.wLength)
          (ControlTransferMut.wire_urb false
            (ControlTransferMut.new false .DeviceToHost .Vendor .Interface 3 0 0 0 b))
          = some 0 := by
      intro b hb
      rw [ControlTransferMut.wire_urb, ControlTransferMut.new]
      simp only
      rw [hb]
      rw [if_neg (by norm_num)]
      rw [Option.map_some']
      show some (u16_from_le false (u16_to_le false (wrap16 (65544 - 8)))) = some 0
      norm_num [wrap16, u16_to_le, u16_from_le]
    exact key (List.replicate 65544 0) (by rw [List.length_replicate])
  · norm_num

/-- C7: wiring a control transfer over a buffer shorter than 8 bytes panics
rather than returning a recoverable error — `StdBufTransfer::control` at
construction, `ControlTransferMut::wire_urb` when invoked, and
`write_setup_struct` when given such a buffer; with at least 8 bytes none of
them panic. -/
theorem control_short_buffer_panics (hostBE : Bool) (d : SetupDirection)
    (ty : SetupType) (r : SetupRecipient) (request value index flags : Nat)
    (setup : Setup) (c : ControlTransferMut) (buf : List Nat) :
    (buf.length < 8 →
        StdBufTransfer.control hostBE d ty r request value index flags buf = none
        ∧ write_setup_struct hostBE setup buf = none)
    ∧ (c.buf.length < 8 → ControlTransferMut.wire_urb hostBE c = none)
    ∧ (8 ≤ buf.length →
        (StdBufTransfer.control hostBE d ty r request value index flags buf).isSome
        ∧ (write_setup_struct hostBE setup buf).isSome)
    ∧ (8 ≤ c.buf.length → (ControlTransferMut.wire_urb hostBE c).isSome) := by
  refine ⟨?_, ?_, ?_, ?_⟩
  · intro h
    constructor
    · rw [StdBufTransfer.control]
      simp only [if_pos h]
    · rw [write_setup_struct]
      simp only [if_pos h]
  · intro h
    rw [ControlTransferMut.wire_urb]
    simp only [if_pos h]
  · intro h
    constructor
    · rw [StdBufTransfer.control]
      simp only [if_neg (by omega : ¬ buf.length < 8)]
      rw [write_setup_struct]
      simp only [if_neg (by omega : ¬ buf.length < 8)]
      simp
    · rw [write_setup_struct]
      simp only [if_neg (by omega : ¬ buf.length < 8), Option.isSome_some]
  · intro h
    rw [ControlTransferMut.wire_urb]
    simp only [if_neg (by omega : ¬ c.buf.length < 8), Option.isSome_some]

/-- Witness for C7: a 3-byte buffer panics at `StdBufTransfer::control` and a
24-byte buffer wires without panicking. -/
theorem control_short_buffer_panics_witness :
    StdBufTransfer.control false .DeviceToHost .Vendor .Interface 3 0 0 0
      [0, 0, 0] = none
    ∧ (ControlTransferMut.wire_urb false
        (ControlTransferMut.new false .DeviceToHost .Vendor .Interface 3 0 0 0
          (List.replicate 24 0))).isSome := by
  constructor
  · exact ((control_short_buffer_panics false .DeviceToHost .Vendor .Interface
      3 0 0 0 { bmRequestType := 0, bRequest := 0, wValue := 0, wIndex := 0, wLength := 0 }
      (ControlTransferMut.new false .DeviceToHost .Vendor .Interface 3 0 0 0 [])
      [0, 0, 0]).1 (by simp)).1
  · exact (control_short_buffer_panics false .DeviceToHost .Vendor .Interface
      3 0 0 0 { bmRequestType := 0, bRequest := 0, wValue := 0, wIndex := 0, wLength := 0 }
      (ControlTransferMut.new false .DeviceToHost .Vendor .Interface 3 0 0 0
        (List.replicate 24 0))
      [0, 0, 0]).2.2.2 (by simp [ControlTransferMut.new])

/-- C10: constructing a `BulkTransfer` or `InterruptTransfer` (immutable
buffer) on an endpoint with the IN bit `0x80` set panics via the assertion,
and succeeds when the bit is clear; the mutable variants accept every
endpoint number. -/
theorem in_endpoint_assertions (endpoint flags : Nat) (buf bufm : List Nat) :
    (endpoint &&& 128 ≠ 0 →
        BulkTransfer.new endpoint flags buf = none
        ∧ InterruptTransfer.new endpoint flags buf = none)
    ∧ (endpoint &&& 128 = 0 →
        (BulkTransfer.new endpoint flags buf).isSome
        ∧ (InterruptTransfer.new endpoint flags buf).isSome)
    ∧ (BulkTransferMut.new endpoint flags bufm).urb.endpoint = endpoint
    ∧ (InterruptTransferMut.new endpoint flags bufm).urb.endpoint = endpoint := by
  refine ⟨?_, ?_, rfl, rfl⟩
  · intro h
    constructor
    · rw [BulkTransfer.new]
      simp only [if_neg h]
    · rw [InterruptTransfer.new]
      simp only [if_neg h]
  · intro h
    constructor
    · rw [BulkTransfer.new]
      simp only [if_pos h, Option.isSome_some]
    · rw [InterruptTransfer.new]
      simp only [if_pos h, Option.isSome_some]

/-- Witness for C10: endpoint `0x81` (IN bit set) is rejected by the immutable
constructors and accepted by the mutable one. -/
theorem in_endpoint_assertions_witness :
    BulkTransfer.new 0x81 0 [] = none
    ∧ (BulkTransferMut.new 0x81 0 []).urb.endpoint = 0x81 := by
  constructor
  · exact ((in_endpoint_assertions 0x81 0 [] []).1 (by decide)).1
  · exact (in_endpoint_assertions 0x81 0 [] []).2.2.1

/-! ## asyncdevice.rs: the slot table and the submit/reap protocol

The slot table `transfers: Vec<Option<R>>` is a `List (Option T)`.  The kernel
side (ioctl results) is passed in explicitly: `submiturb`'s verdict as an
`Except` value, and the reap primitives as an oracle giving either an errno or
the `usercontext` tag of the completed URB. -/

/-- Rust `AsyncDevice::insert_transfer`: scan for the first empty slot (`find` over
`enumerate`); if every slot is occupied, push a new slot at the end.  Returns
the updated table and the slot index used. -/
def insert_transfer {T : Type} : List (Option T) → T → List (Option T) × Nat
  | [], t => ([some t], 0)
  | none :: ts, t => (some t :: ts, 0)
  | some x :: ts, t =>
    let p := insert_transfer ts t
    (some x :: p.1, p.2 + 1)

/-- Rust `AsyncDevice::take_transfer`: `get_mut(id).and_then(|e| e.take())` —
out-of-range ids yield `none` and leave the table unchanged; an in-range slot
is emptied and its previous content returned. -/
def take_transfer {T : Type} (ts : List (Option T)) (id : Nat) :
    Option T × List (Option T) :=
  match ts.get? id with
  | some (some t) => (some t, ts.set id none)
  | _ => (none, ts)

/-- A slot of the table holds a transfer. -/
def slotOccupied {T : Type} (ts : List (Option T)) (j : Nat) : Prop :=
  ∃ u, ts.get? j = some (some u)

/-- The `AsyncDevice` state that the claims are about: the slot table.
(The open device descriptor is an external resource and is not modelled.) -/
structure AsyncDevice (T : Type) where
  transfers : List (Option T)
  deriving DecidableEq, Repr

/-- Linux errno for "resource temporarily unavailable" (`EAGAIN`). -/
def EAGAIN : Nat := 11

/-- Linux errno for "no such device" (`ENODEV`), a hard reap failure. -/
def ENODEV : Nat := 19

/-- The relevant `io::ErrorKind` values. -/
inductive ErrorKind
  | WouldBlock
  | NotFound
  | PermissionDenied
  | Uncategorized
  deriving DecidableEq, Repr

/-- Modelled from the spec: the standard library's errno-to-`ErrorKind`
classification used by `io::Error::from(nix::Error)` (the crate's own code is
`nix_result_to_io_result` in devfs.rs; the classification itself lives in the
standard library).  `EAGAIN` maps to `WouldBlock`; no other errno does. -/
def errnoKind (e : Nat) : ErrorKind :=
  if e = EAGAIN then .WouldBlock
  else if e = 2 then .NotFound
  else if e = 13 then .PermissionDenied
  else .Uncategorized

/-- An `io::Error` carrying its raw OS errno. -/
structure IoError where
  rawOsError : Nat
  deriving DecidableEq, Repr

/-- The kind of an `io::Error` built from a raw errno. -/
def IoError.kind (e : IoError) : ErrorKind := errnoKind e.rawOsError

/-- Rust `devfs::nix_result_to_io_result`: map the nix error (an errno) into an
`io::Error`, preserving the payload. -/
def nix_result_to_io_result {α : Type} (r : Except Nat α) : Except IoError α :=
  r.mapError (fun e => { rawOsError := e })

/-- Rust `AsyncDevice::submit_give_back_on_fail`, with the kernel's verdict on the
submitted URB passed as `kres`.  The transfer is inserted into a slot, the
slot index is stamped into the URB's `usercontext`, and the URB is submitted:
on success the slot index is returned; on kernel rejection the transfer is
taken back out of its slot and returned with the error (the `Option T` is the
value handed to `.unwrap()`). -/
def AsyncDevice.submit_give_back_on_fail {T : Type} (dev : AsyncDevice T)
    (transfer : T) (kres : Except Nat Unit) :
    AsyncDevice T × Except (IoError × Option T) Nat :=
  let p := insert_transfer dev.transfers transfer
  match nix_result_to_io_result kres with
  | .ok _ => ({ transfers := p.1 }, .ok p.2)
  | .error err =>
    let q := take_transfer p.1 p.2
    ({ transfers := q.2 }, .error (err, q.1))

/-- Rust `AsyncDevice::reap_main`, with the reap primitives passed as an oracle
`ker`: `ker false` is `reapurbndelay` (non-blocking), `ker true` is `reapurb`
(blocking); either returns an errno or the completed URB's `usercontext` tag.
A kernel error is surfaced directly; otherwise the tagged slot is emptied and
its content (the value handed to `.unwrap()`) returned. -/
def AsyncDevice.reap_main {T : Type} (dev : AsyncDevice T) (wait : Bool)
    (ker : Bool → Except Nat Nat) : Except IoError (AsyncDevice T × Option T) :=
  match nix_result_to_io_result (ker wait) with
  | .error e => .error e
  | .ok id =>
    let q := take_transfer dev.transfers id
    .ok ({ transfers := q.2 }, q.1)

/-- Rust `AsyncDevice::reap_nowait` is `reap_main` with `wait = false`. -/
def AsyncDevice.reap_nowait {T : Type} (dev : AsyncDevice T)
    (ker : Bool → Except Nat Nat) : Except IoError (AsyncDevice T × Option T) :=
  dev.reap_main false ker

/-- Rust `AsyncDevice::reap_wait` is `reap_main` with `wait = true`. -/
def AsyncDevice.reap_wait {T : Type} (dev : AsyncDevice T)
    (ker : Bool → Except Nat Nat) : Except IoError (AsyncDevice T × Option T) :=
  dev.reap_main true ker

/-! ### Insert/take slot-table lemmas -/

theorem insert_transfer_le_length {T : Type} (ts : List (Option T)) (t : T) :
    (insert_transfer ts t).2 ≤ ts.length := by
  induction ts with
  | nil => simp [insert_transfer]
  | cons hd tl ih =>
    cases hd with
    | none => simp [insert_transfer]
    | some x =>
      simp only [insert_transfer, List.length_cons]
      omega

theorem insert_transfer_earlier_occupied {T : Type} (ts : List (Option T)) (t : T) :
    ∀ j, j < (insert_transfer ts t).2 → ts.get? j ≠ some none := by
  induction ts with
  | nil => simp [insert_transfer]
  | cons hd tl ih =>
    cases hd with
    | none => simp [insert_transfer]
    | some x =>
      intro j hj
      simp only [insert_transfer] at hj
      match j with
      | 0 => simp
      | j + 1 =>
        simp only [List.get?]
        exact ih j (by omega)

theorem insert_transfer_found {T : Type} (ts : List (Option T)) (t : T)
    (h : (insert_transfer ts t).2 < ts.length) :
    ts.get? (insert_transfer ts t).2 = some none
    ∧ (insert_transfer ts t).1 = ts.set (insert_transfer ts t).2 (some t) := by
  induction ts with
  | nil => simp [insert_transfer] at h
  | cons hd tl ih =>
    cases hd with
    | none => simp [insert_transfer]
    | some x =>
      simp only [insert_transfer, List.length_cons] at h ⊢
      have := ih (by omega)
      simp only [List.get?, List.set]
      exact ⟨this.1, by rw [this.2]⟩

theorem insert_transfer_append {T : Type} (ts : List (Option T)) (t : T)
    (h : (insert_transfer ts t).2 = ts.length) :
    (insert_transfer ts t).1 = ts ++ [some t] := by
  induction ts with
  | nil => simp [insert_transfer]
  | cons hd tl ih =>
    cases hd with
    | none => simp [insert_transfer] at h
    | some x =>
      simp only [insert_transfer, List.length_cons] at h ⊢
      rw [ih (by omega)]
      simp

theorem insert_transfer_full_iff {T : Type} (ts : List (Option T)) (t : T) :
    (insert_transfer ts t).2 = ts.length ↔ ∀ j, ts.get? j ≠ some none := by
  constructor
  · intro h j
    by_cases hj : j < ts.length
    · exact insert_transfer_earlier_occupied ts t j (by omega)
    · rw [List.get?_eq_none.2 (by omega)]
      simp
  · intro h
    have hle := insert_transfer_le_length ts t
    by_contra hne
    have hlt : (insert_transfer ts t).2 < ts.length := by omega
    exact h _ (insert_transfer_found ts t hlt).1

theorem insert_transfer_get_id {T : Type} (ts : List (Option T)) (t : T) :
    (insert_transfer ts t).1.get? (insert_transfer ts t).2 = some (some t) := by
  have hle := insert_transfer_le_length ts t
  by_cases h : (insert_transfer ts t).2 < ts.length
  · rw [(insert_transfer_found ts t h).2]
    rw [List.get?_set_eq_of_lt _ h]
  · have heq : (insert_transfer ts t).2 = ts.length := by omega
    rw [insert_transfer_append ts t heq, heq]
    rw [List.get?_append_right (by omega)]
    simp

theorem insert_transfer_get_other {T : Type} (ts : List (Option T)) (t : T)
    (j : Nat) (hj : j ≠ (insert_transfer ts t).2) :
    (insert_transfer ts t).1.get? j = ts.get? j := by
  by_cases h : (insert_transfer ts t).2 < ts.length
  · rw [(insert_transfer_found ts t h).2]
    exact List.get?_set_ne _ _ (fun he => hj he.symm)
  · have hle := insert_transfer_le_length ts t
    have heq : (insert_transfer ts t).2 = ts.length := by omega
    rw [insert_transfer_append ts t heq]
    by_cases hjl : j < ts.length
    · exact List.get?_append hjl
    · have hgt : ts.length < j := by omega
      have h1 : [some t].get? (j - ts.length) = none :=
        List.get?_eq_none.2 (by simp; omega)
      have h2 : ts.get? j = none := List.get?_eq_none.2 (by omega)
      rw [List.get?_append_right (by omega), h1, h2]

theorem insert_transfer_target_empty {T : Type} (ts : List (Option T)) (t : T) :
    ts.get? (insert_transfer ts t).2 = some none
    ∨ (insert_transfer ts t).2 = ts.length := by
  by_cases h : (insert_transfer ts t).2 < ts.length
  · exact Or.inl (insert_transfer_found ts t h).1
  · have hle := insert_transfer_le_length ts t
    exact Or.inr (by omega)

theorem take_transfer_of_get {T : Type} (ts : List (Option T)) (id : Nat)
    (t : T) (h : ts.get? id = some (some t)) :
    take_transfer ts id = (some t, ts.set id none) := by
  rw [take_transfer, h]

theorem take_transfer_get_other {T : Type} (ts : List (Option T)) (id j : Nat)
    (hj : j ≠ id) : (take_transfer ts id).2.get? j = ts.get? j := by
  rw [take_transfer]
  match h : ts.get? id with
  | some (some t) => exact List.get?_set_ne _ _ (fun he => hj he.symm)
  | some none => rfl
  | none => rfl

theorem take_transfer_get_id {T : Type} (ts : List (Option T)) (id : Nat)
    (t : T) (h : ts.get? id = some (some t)) :
    (take_transfer ts id).2.get? id = some none := by
  rw [take_transfer, h]
  have hlt : id < ts.length := by
    by_contra hge
    rw [List.get?_eq_none.2 (by omega)] at h
    cases h
  exact List.get?_set_eq_of_lt _ hlt

/-- C5: `insert_transfer` stores the transfer in the lowest-indexed empty slot
when at least one slot is empty (every lower slot is occupied and the table is
updated in place), and appends a new slot at index `len` exactly when every
existing slot is occupied; the returned index is where the transfer is
stored. -/
theorem insert_transfer_slot_policy {T : Type} (ts : List (Option T)) (t : T) :
    (insert_transfer ts t).1.get? (insert_transfer ts t).2 = some (some t)
    ∧ (∀ j, j < (insert_transfer ts t).2 → ts.get? j ≠ some none)
    ∧ ((insert_transfer ts t).2 < ts.length →
        ts.get? (insert_transfer ts t).2 = some none
        ∧ (insert_transfer ts t).1 = ts.set (insert_transfer ts t).2 (some t))
    ∧ ((insert_transfer ts t).2 = ts.length →
        (insert_transfer ts t).1 = ts ++ [some t])
    ∧ ((insert_transfer ts t).2 = ts.length ↔ ∀ j, ts.get? j ≠ some none)
    ∧ (insert_transfer ts t).2 ≤ ts.length :=
  ⟨insert_transfer_get_id ts t, insert_transfer_earlier_occupied ts t,
   insert_transfer_found ts t, insert_transfer_append ts t,
   insert_transfer_full_iff ts t, insert_transfer_le_length ts t⟩

/-- Witness for C5: in the table `[occupied, empty, occupied]` the transfer
goes to slot 1, the lowest-indexed empty slot. -/
theorem insert_transfer_slot_policy_witness :
    (insert_transfer [some (1 : Nat), none, some 2] 42).1.get?
        (insert_transfer [some (1 : Nat), none, some 2] 42).2 = some (some 42)
    ∧ insert_transfer [some (1 : Nat), none, some 2] 42
        = ([some 1, some 42, some 2], 1) := by
  constructor
  · exact (insert_transfer_slot_policy [some 1, none, some 2] 42).1
  · decide

/-- C4: when the kernel rejects the submitted URB, `submit_give_back_on_fail`
returns the error paired with the exact transfer object that was passed in
(the internal `take_transfer(id).unwrap()` succeeds and yields it), and slot
occupancy afterwards is identical to the occupancy before the call, so no slot
remains occupied by the rejected transfer. -/
theorem submit_fail_gives_back {T : Type} (dev : AsyncDevice T) (transfer : T)
    (e : Nat) :
    (dev.submit_give_back_on_fail transfer (.error e)).2
        = .error ({ rawOsError := e }, some transfer)
    ∧ ∀ j, slotOccupied
          (dev.submit_give_back_on_fail transfer (.error e)).1.transfers j
        ↔ slotOccupied dev.transfers j := by
  have hget := insert_transfer_get_id dev.transfers transfer
  have hlt : (insert_transfer dev.transfers transfer).2
      < (insert_transfer dev.transfers transfer).1.length := by
    by_contra hge
    rw [List.get?_eq_none.2 (by omega)] at hget
    cases hget
  have htake := take_transfer_of_get _ _ _ hget
  have hsub : dev.submit_give_back_on_fail transfer (.error e)
      = ({ transfers := (take_transfer (insert_transfer dev.transfers transfer).1
              (insert_transfer dev.transfers transfer).2).2 },
         .error ({ rawOsError := e },
           (take_transfer (insert_transfer dev.transfers transfer).1
              (insert_transfer dev.transfers transfer).2).1)) := rfl
  constructor
  · rw [hsub, htake]
  · intro j
    rw [hsub]
    simp only [slotOccupied, htake]
    by_cases hj : j = (insert_transfer dev.transfers transfer).2
    · subst hj
      constructor
      · rintro ⟨u, hu⟩
        rw [List.get?_set_eq_of_lt _ hlt] at hu
        cases hu
      · rintro ⟨u, hu⟩
        rcases insert_transfer_target_empty dev.transfers transfer with h | h
        · have hcontra := h.symm.trans hu
          cases hcontra
        · rw [List.get?_eq_none.2 (le_of_eq h.symm)] at hu
          cases hu
    · rw [List.get?_set_ne _ _ (fun he => hj he.symm)]
      rw [insert_transfer_get_other dev.transfers transfer j hj]

/-- C6: a non-blocking reap with nothing pending (kernel `EAGAIN`) yields an
error whose kind is `WouldBlock`; every kernel reap errno is surfaced verbatim
with that raw OS error (no internal retry); no errno other than `EAGAIN` maps
to `WouldBlock`, so hard failures such as device disconnection (`ENODEV`) are
distinct; and `reap_nowait` consults exactly the non-blocking kernel
primitive (`wait = false`). -/
theorem reap_nowait_would_block {T : Type} (dev : AsyncDevice T)
    (ker : Bool → Except Nat Nat) :
    (ker false = .error EAGAIN →
        dev.reap_nowait ker = .error { rawOsError := EAGAIN }
        ∧ IoError.kind { rawOsError := EAGAIN } = .WouldBlock)
    ∧ (∀ e, ker false = .error e →
        dev.reap_nowait ker = .error { rawOsError := e })
    ∧ (∀ e, e ≠ EAGAIN → IoError.kind { rawOsError := e } ≠ .WouldBlock)
    ∧ dev.reap_nowait ker = dev.reap_main false ker := by
  refine ⟨?_, ?_, ?_, rfl⟩
  · intro h
    refine ⟨?_, by decide⟩
    rw [AsyncDevice.reap_nowait, AsyncDevice.reap_main, h]
    rfl
  · intro e h
    rw [AsyncDevice.reap_nowait, AsyncDevice.reap_main, h]
    rfl
  · intro e he
    simp only [IoError.kind, errnoKind, if_neg he]
    split_ifs <;> decide

/-- Witness for C6: on an empty device with the kernel reporting `EAGAIN`,
`reap_nowait` returns the `WouldBlock`-kinded error. -/
theorem reap_nowait_would_block_witness :
    (⟨[]⟩ : AsyncDevice Nat).reap_nowait (fun _ => .error EAGAIN)
        = .error { rawOsError := EAGAIN }
    ∧ IoError.kind { rawOsError := EAGAIN } = .WouldBlock :=
  (reap_nowait_would_block (⟨[]⟩ : AsyncDevice Nat)
    (fun _ => .error EAGAIN)).1 rfl

/-! ### The submit/reap event machine

For the lifecycle invariant the kernel is modelled as holding the multiset of
submitted-but-not-completed URBs, each carrying the usercontext tag the engine
stamped at submission, and handing each back exactly once: a reap event for
tag `id` is possible only while the kernel holds an URB with that tag, and
consumes it. -/

/-- Engine-plus-kernel state: the slot table, and the URBs the kernel
currently holds as (stamped tag, owning transfer) pairs. -/
structure EngineState (T : Type) where
  transfers : List (Option T)
  pending : List (Nat × T)
  deriving DecidableEq, Repr

/-- The observable events: a submit the kernel accepts, a submit the kernel
rejects, and the completion-and-reap of the URB carrying a given tag. -/
inductive Event (T : Type)
  | submitOk (t : T)
  | submitFail (t : T)
  | reap (id : Nat)
  deriving DecidableEq, Repr

/-- State after a successful `submit_give_back_on_fail`: the transfer sits in
the slot `insert_transfer` chose, whose index was stamped into the URB, and
the kernel now holds that URB. -/
def submitOkState {T : Type} (s : EngineState T) (t : T) : EngineState T :=
  { transfers := (insert_transfer s.transfers t).1
    pending := s.pending ++ [((insert_transfer s.transfers t).2, t)] }

/-- One step of the engine.  `none` means the event cannot occur (the kernel
never hands back a tag it does not hold).  A reap step also returns the reaped
tag and the value `take_transfer` produced for it (the `unwrap` argument in
`reap_main`). -/
def step {T : Type} (s : EngineState T) :
    Event T → Option (EngineState T × Option (Nat × Option T))
  | .submitOk t => some (submitOkState s t, none)
  | .submitFail t =>
    some
      ({ transfers := (take_transfer (insert_transfer s.transfers t).1
            (insert_transfer s.transfers t).2).2
         pending := s.pending }, none)
  | .reap id =>
    match s.pending.find? (fun en => en.1 == id) with
    | none => none
    | some en =>
      some
        ({ transfers := (take_transfer s.transfers en.1).2
           pending := s.pending.eraseP (fun x => x.1 == id) },
         some (en.1, (take_transfer s.transfers en.1).1))

/-- Run a sequence of events from a state. -/
def run {T : Type} (s : EngineState T) : List (Event T) → Option (EngineState T)
  | [] => some s
  | ev :: evs =>
    match step s ev with
    | none => none
    | some (s2, _) => run s2 evs

/-- The engine invariant: every kernel-held URB's tag names a slot that holds
exactly the URB's owning transfer, and no two kernel-held URBs share a tag. -/
def EngineInv {T : Type} (s : EngineState T) : Prop :=
  (∀ p ∈ s.pending, s.transfers.get? p.1 = some (some p.2))
  ∧ (s.pending.map Prod.fst).Nodup

theorem mem_eraseP_of_pred_false {T : Type} (l : List (Nat × T))
    (p : Nat × T → Bool) (a : Nat × T) (ha : p a = false) (hm : a ∈ l) :
    a ∈ l.eraseP p := by
  induction l with
  | nil => cases hm
  | cons hd tl ih =>
    rcases List.mem_cons.1 hm with heq | hm2
    · subst heq
      rw [List.eraseP_cons, ha]
      exact List.mem_cons_self _ _
    · by_cases hph : p hd = true
      · rw [List.eraseP_cons_of_pos hph]
        exact hm2
      · rw [List.eraseP_cons_of_neg (by simpa using hph)]
        exact List.mem_cons_of_mem _ (ih hm2)

theorem pending_find_erase {T : Type} (l : List (Nat × T)) (id : Nat) (t : T)
    (hnd : (l.map Prod.fst).Nodup) (hmem : (id, t) ∈ l) :
    l.find? (fun en => en.1 == id) = some (id, t)
    ∧ ∀ p ∈ l.eraseP (fun x => x.1 == id), p.1 ≠ id := by
  induction l with
  | nil => cases hmem
  | cons hd tl ih =>
    rw [List.map_cons, List.nodup_cons] at hnd
    by_cases hh : hd.1 = id
    · have hdt : hd = (id, t) := by
        rcases List.mem_cons.1 hmem with heq | hmem2
        · exact heq.symm
        · exfalso
          apply hnd.1
          rw [hh]
          exact List.mem_map.2 ⟨(id, t), hmem2, rfl⟩
      constructor
      · rw [List.find?_cons_of_pos _ (by simp [hh])]
        rw [hdt]
      · rw [List.eraseP_cons_of_pos (by simp [hh])]
        intro p hp hpid
        apply hnd.1
        rw [hh]
        exact List.mem_map.2 ⟨p, hp, hpid⟩
    · have hmem2 : (id, t) ∈ tl := by
        rcases List.mem_cons.1 hmem with heq | h
        · exact absurd (congrArg Prod.fst heq.symm) hh
        · exact h
      have hih := ih hnd.2 hmem2
      constructor
      · rw [List.find?_cons_of_neg _ (by simp [hh])]
        exact hih.1
      · rw [List.eraseP_cons_of_neg (by simp [hh])]
        intro p hp
        rcases List.mem_cons.1 hp with heq | h
        · rw [heq]
          exact hh
        · exact hih.2 p h

/-- The slot chosen by `insert_transfer` is never a slot some kernel-held URB
points at: those slots are occupied, the chosen one is empty or fresh. -/
theorem insert_fresh {T : Type} (s : EngineState T) (t : T)
    (hInv : EngineInv s) :
    ∀ p ∈ s.pending, p.1 ≠ (insert_transfer s.transfers t).2 := by
  intro p hp heq
  have hocc := hInv.1 p hp
  rcases insert_transfer_target_empty s.transfers t with h | h
  · rw [heq, h] at hocc
    cases hocc
  · rw [heq, h] at hocc
    rw [List.get?_eq_none.2 (le_refl _)] at hocc
    cases hocc

/-- A kernel-accepted submit establishes the invariant and the slot/pending
facts for the new transfer. -/
theorem submitOk_establishes {T : Type} (s : EngineState T) (t : T)
    (hInv : EngineInv s) :
    EngineInv (submitOkState s t)
    ∧ (submitOkState s t).transfers.get? (insert_transfer s.transfers t).2
        = some (some t)
    ∧ ((insert_transfer s.transfers t).2, t) ∈ (submitOkState s t).pending := by
  have hfresh := insert_fresh s t hInv
  refine ⟨⟨?_, ?_⟩, insert_transfer_get_id s.transfers t, ?_⟩
  · intro p hp
    rw [submitOkState] at hp ⊢
    simp only at hp ⊢
    rcases List.mem_append.1 hp with hold | hnew
    · rw [insert_transfer_get_other s.transfers t p.1 (hfresh p hold)]
      exact hInv.1 p hold
    · rcases List.mem_singleton.1 hnew with rfl
      exact insert_transfer_get_id s.transfers t
  · rw [submitOkState]
    simp only [List.map_append, List.map_cons, List.map_nil]
    rw [List.nodup_append]
    refine ⟨hInv.2, by simp, ?_⟩
    intro a ha
    simp only [List.mem_singleton]
    intro hae
    rcases List.mem_map.1 ha with ⟨p, hp, hpa⟩
    exact hfresh p hp (hpa.symm ▸ hae ▸ rfl)
  · rw [submitOkState]
    exact List.mem_append.2 (Or.inr (List.mem_singleton.2 rfl))

/-- Any step other than reaping tag `id` preserves the invariant, the slot
content at `id`, and the kernel's hold on `(id, t)`. -/
theorem step_preserves {T : Type} (s s' : EngineState T) (ev : Event T)
    (out : Option (Nat × Option T)) (id : Nat) (t : T)
    (hInv : EngineInv s)
    (hhold : s.transfers.get? id = some (some t))
    (hpend : (id, t) ∈ s.pending)
    (hev : ev ≠ .reap id)
    (hstep : step s ev = some (s', out)) :
    EngineInv s' ∧ s'.transfers.get? id = some (some t)
    ∧ (id, t) ∈ s'.pending := by
  cases ev with
  | submitOk u =>
    simp only [step] at hstep
    injection hstep with h
    injection h with h1 h2
    subst h1
    have hest := submitOk_establishes s u hInv
    refine ⟨hest.1, ?_, ?_⟩
    · have hne : id ≠ (insert_transfer s.transfers u).2 := by
        intro heq
        rcases insert_transfer_target_empty s.transfers u with h | h
        · rw [heq, h] at hhold
          cases hhold
        · rw [heq, h, List.get?_eq_none.2 (le_refl _)] at hhold
          cases hhold
      rw [submitOkState]
      simp only
      rw [insert_transfer_get_other s.transfers u id hne]
      exact hhold
    · rw [submitOkState]
      exact List.mem_append.2 (Or.inl hpend)
  | submitFail u =>
    simp only [step] at hstep
    injection hstep with h
    injection h with h1 h2
    subst h1
    have hne : id ≠ (insert_transfer s.transfers u).2 := by
      intro heq
      rcases insert_transfer_target_empty s.transfers u with h | h
      · rw [heq, h] at hhold
        cases hhold
      · rw [heq, h, List.get?_eq_none.2 (le_refl _)] at hhold
        cases hhold
    have hfresh := insert_fresh s u hInv
    have hslot : ∀ j, j ≠ (insert_transfer s.transfers u).2 →
        (take_transfer (insert_transfer s.transfers u).1
          (insert_transfer s.transfers u).2).2.get? j = s.transfers.get? j := by
      intro j hj
      rw [take_transfer_get_other _ _ _ hj]
      exact insert_transfer_get_other s.transfers u j hj
    refine ⟨⟨?_, hInv.2⟩, ?_, hpend⟩
    · intro p hp
      simp only
      rw [hslot p.1 (hfresh p hp)]
      exact hInv.1 p hp
    · simp only
      rw [hslot id hne]
      exact hhold
  | reap id2 =>
    have hne : id2 ≠ id := by
      intro h
      exact hev (by rw [h])
    simp only [step] at hstep
    cases hfind : s.pending.find? (fun en => en.1 == id2) with
    | none =>
      rw [hfind] at hstep
      simp at hstep
    | some en =>
      rw [hfind] at hstep
      simp only at hstep
      injection hstep with h
      injection h with h1 h2
      subst h1
      have hen1 : en.1 = id2 := by
        have := List.find?_some hfind
        simpa using this
      have henmem : en ∈ s.pending := List.mem_of_find?_eq_some hfind
      have henmem2 : (id2, en.2) ∈ s.pending := by
        rw [← hen1]
        exact henmem
      have hfe := pending_find_erase s.pending id2 en.2 hInv.2 henmem2
      refine ⟨⟨?_, ?_⟩, ?_, ?_⟩
      · intro p hp
        simp only
        have hpmem : p ∈ s.pending := (List.eraseP_sublist s.pending).subset hp
        have hpne : p.1 ≠ en.1 := by
          rw [hen1]
          exact hfe.2 p hp
        rw [take_transfer_get_other _ _ _ hpne]
        exact hInv.1 p hpmem
      · simp only
        exact hInv.2.sublist ((List.eraseP_sublist s.pending).map Prod.fst)
      · simp only
        rw [take_transfer_get_other _ _ _ (by rw [hen1]; exact fun h => hne h.symm)]
        exact hhold
      · simp only
        exact mem_eraseP_of_pred_false s.pending _ (id, t)
          (by simpa using fun h => hne h.symm) hpend

theorem run_append {T : Type} (a b : List (Event T)) :
    ∀ s : EngineState T,
      run s (a ++ b) = (run s a).bind (fun s2 => run s2 b) := by
  induction a with
  | nil =>
    intro s
    simp [run]
  | cons ev evs ih =>
    intro s
    simp only [List.cons_append, run]
    cases hstep : step s ev with
    | none => simp
    | some p =>
      obtain ⟨s2, out⟩ := p
      simp only
      exact ih s2

theorem run_preserves {T : Type} (id : Nat) (t : T) :
    ∀ (evs : List (Event T)) (s s2 : EngineState T),
      EngineInv s → s.transfers.get? id = some (some t) → (id, t) ∈ s.pending →
      (∀ ev ∈ evs, ev ≠ .reap id) → run s evs = some s2 →
      EngineInv s2 ∧ s2.transfers.get? id = some (some t)
      ∧ (id, t) ∈ s2.pending := by
  intro evs
  induction evs with
  | nil =>
    intro s s2 h1 h2 h3 _ hrun
    simp only [run] at hrun
    injection hrun with h
    subst h
    exact ⟨h1, h2, h3⟩
  | cons ev evs ih =>
    intro s s2 h1 h2 h3 hev hrun
    simp only [run] at hrun
    cases hstep : step s ev with
    | none =>
      rw [hstep] at hrun
      simp at hrun
    | some p =>
      obtain ⟨s3, out⟩ := p
      rw [hstep] at hrun
      simp only at hrun
      have hpres := step_preserves s s3 ev out id t h1 h2 h3
        (hev ev (List.mem_cons_self _ _)) hstep
      exact ih s3 s2 hpres.1 hpres.2.1 hpres.2.2
        (fun e he => hev e (List.mem_cons_of_mem _ he)) hrun

/-- Under the invariant, reaping a pending tag returns exactly the transfer
submitted under that tag, empties its slot, and removes the tag from the
kernel's hold. -/
theorem reap_returns {T : Type} (s : EngineState T) (id : Nat) (t : T)
    (hInv : EngineInv s) (hpend : (id, t) ∈ s.pending) :
    step s (.reap id) = some
      ({ transfers := (take_transfer s.transfers id).2
         pending := s.pending.eraseP (fun x => x.1 == id) },
       some (id, some t))
    ∧ (take_transfer s.transfers id).2.get? id = some none
    ∧ ∀ p ∈ s.pending.eraseP (fun x => x.1 == id), p.1 ≠ id := by
  have hfe := pending_find_erase s.pending id t hInv.2 hpend
  have hocc := hInv.1 (id, t) hpend
  have htake := take_transfer_of_get s.transfers id t hocc
  refine ⟨?_, take_transfer_get_id s.transfers id t hocc, hfe.2⟩
  simp only [step, hfe.1]
  rw [htake]

/-- A tag the kernel does not hold cannot be reaped. -/
theorem reap_twice_none {T : Type} (s3 : EngineState T) (id : Nat)
    (h : ∀ p ∈ s3.pending, p.1 ≠ id) : step s3 (.reap id) = none := by
  have hnone : s3.pending.find? (fun en => en.1 == id) = none :=
    List.find?_eq_none.2 (fun x hx => by simpa using h x hx)
  simp only [step, hnone]

/-- C1: from any state satisfying the engine invariant, a transfer `t` that a
submit successfully hands to the kernel is stored in the slot `insert_transfer`
chose; through every sequence of further submits, failed submits and reaps of
other tags, that slot keeps holding exactly `t` and the kernel keeps holding
the tag (so the slot is assigned to no other transfer); the reap of that tag
then returns the identical transfer `t`, after which the slot is empty and the
kernel no longer holds the tag, so reaping it again is impossible — the
transfer is returned by exactly one reap. -/
theorem submit_reap_lifecycle {T : Type} (s : EngineState T) (t : T)
    (mid : List (Event T)) (s2 : EngineState T)
    (hInv : EngineInv s)
    (hmid : ∀ ev ∈ mid, ev ≠ Event.reap (insert_transfer s.transfers t).2)
    (hrun : run (submitOkState s t) mid = some s2) :
    (∀ pre rest, mid = pre ++ rest →
      ∃ s', run (submitOkState s t) pre = some s'
        ∧ s'.transfers.get? (insert_transfer s.transfers t).2 = some (some t)
        ∧ ((insert_transfer s.transfers t).2, t) ∈ s'.pending
        ∧ ∀ p ∈ s'.pending, p.1 = (insert_transfer s.transfers t).2 → p.2 = t)
    ∧ ∃ s3, step s2 (.reap (insert_transfer s.transfers t).2)
          = some (s3, some ((insert_transfer s.transfers t).2, some t))
        ∧ s3.transfers.get? (insert_transfer s.transfers t).2 = some none
        ∧ (∀ p ∈ s3.pending, p.1 ≠ (insert_transfer s.transfers t).2)
        ∧ step s3 (.reap (insert_transfer s.transfers t).2) = none := by
  have hsub := submitOk_establishes s t hInv
  constructor
  · intro pre rest hsplit
    subst hsplit
    rw [run_append] at hrun
    cases hpre : run (submitOkState s t) pre with
    | none =>
      rw [hpre] at hrun
      simp at hrun
    | some s' =>
      have hp := run_preserves (insert_transfer s.transfers t).2 t pre
        (submitOkState s t) s' hsub.1 hsub.2.1 hsub.2.2
        (fun ev he => hmid ev (List.mem_append.2 (Or.inl he))) hpre
      refine ⟨s', rfl, hp.2.1, hp.2.2, ?_⟩
      intro p hp2 hpi
      have h1 := hp.1.1 p hp2
      rw [hpi, hp.2.1] at h1
      injection h1 with h2
      injection h2 with h3
      exact h3.symm
  · have hp := run_preserves (insert_transfer s.transfers t).2 t mid
      (submitOkState s t) s2 hsub.1 hsub.2.1 hsub.2.2 hmid hrun
    have hre := reap_returns s2 (insert_transfer s.transfers t).2 t hp.1 hp.2.2
    exact ⟨_, hre.1, hre.2.1, hre.2.2, reap_twice_none _ _ hre.2.2⟩

/-- Witness for C1: from the empty engine, submit transfer `42` (slot 0), run
no further events, then reap tag 0: the reap returns `42`, slot 0 is empty
afterwards, and a second reap of tag 0 is impossible. -/
theorem submit_reap_lifecycle_witness :
    EngineInv (⟨[], []⟩ : EngineState Nat)
    ∧ run (submitOkState (⟨[], []⟩ : EngineState Nat) 42) []
        = some (submitOkState (⟨[], []⟩ : EngineState Nat) 42)
    ∧ ∃ s3, step (submitOkState (⟨[], []⟩ : EngineState Nat) 42)
          (.reap (insert_transfer ([] : List (Option Nat)) 42).2)
        = some (s3, some ((insert_transfer ([] : List (Option Nat)) 42).2, some 42))
        ∧ s3.transfers.get? (insert_transfer ([] : List (Option Nat)) 42).2
            = some none
        ∧ (∀ p ∈ s3.pending, p.1 ≠ (insert_transfer ([] : List (Option Nat)) 42).2)
        ∧ step s3 (.reap (insert_transfer ([] : List (Option Nat)) 42).2) = none := by
  have hInv : EngineInv (⟨[], []⟩ : EngineState Nat) := ⟨by simp, by simp⟩
  exact ⟨hInv, rfl,
    (submit_reap_lifecycle (⟨[], []⟩ : EngineState Nat) 42 []
      (submitOkState (⟨[], []⟩ : EngineState Nat) 42) hInv (by simp) rfl).2⟩

/-! ## device.rs: Device::from_busdev and the device-file path templates -/

/-- Rust `format!("{:03}", n)`: decimal, left-padded with zeros to width 3. -/
def pad3 (n : Nat) : String :=
  String.mk (List.replicate (3 - (toString n).length) '0') ++ toString n

/-- The primary device-file path, `/dev/bus/usb/{:03}/{:03}`. -/
def devPathPrimary (b d : Nat) : String :=
  "/dev/bus/usb/" ++ pad3 b ++ "/" ++ pad3 d

/-- The first legacy path, `/dev/usbdev{}.{}` — plain decimal, not padded. -/
def devPathLegacy1 (b d : Nat) : String :=
  "/dev/usbdev" ++ toString b ++ "." ++ toString d

/-- The second legacy path, `/proc/bus/usb/{:03}/{:03}`. -/
def devPathLegacy2 (b d : Nat) : String :=
  "/proc/bus/usb/" ++ pad3 b ++ "/" ++ pad3 d

/-- Modelled from the spec's words, for comparison only: the first legacy path
as claim C8 states it, formatted from 3-digit zero-padded numbers. -/
def devPathLegacy1_claimed (b d : Nat) : String :=
  "/dev/usbdev" ++ pad3 b ++ "." ++ pad3 d

/-- Rust `Device`: wraps the opened device file handle. -/
structure Device (H : Type) where
  file : H
  deriving DecidableEq, Repr

/-- Rust `Device::from_busdev`, with the filesystem passed as an oracle `openRW`
(opening a path for read+write).  Tries the primary path, then the two legacy
paths in order (`or_else` chain), returning the first success wrapped in
`Device`, or the error of the last attempt when all three fail. -/
def Device.from_busdev {H : Type} (openRW : String → Except IoError H)
    (busnum devnum : Nat) : Except IoError (Device H) :=
  match openRW (devPathPrimary busnum devnum) with
  | .ok f => .ok { file := f }
  | .error _ =>
    match openRW (devPathLegacy1 busnum devnum) with
    | .ok f => .ok { file := f }
    | .error _ =>
      match openRW (devPathLegacy2 busnum devnum) with
      | .ok f => .ok { file := f }
      | .error e => .error e

/-- C8 (amended): opening a device tries exactly the three path templates in
order — the primary bus/device path and the second legacy path formatted from
3-digit zero-padded numbers, the first legacy path from plain (unpadded)
decimal numbers — returns a handle for the first path that opens for
read+write, and when all three fail returns the I/O error of the last
attempt. -/
theorem from_busdev_path_order {H : Type} (openRW : String → Except IoError H)
    (b d : Nat) :
    (∀ f, openRW (devPathPrimary b d) = .ok f →
        Device.from_busdev openRW b d = .ok { file := f })
    ∧ (∀ e1 f, openRW (devPathPrimary b d) = .error e1 →
        openRW (devPathLegacy1 b d) = .ok f →
        Device.from_busdev openRW b d = .ok { file := f })
    ∧ (∀ e1 e2 f, openRW (devPathPrimary b d) = .error e1 →
        openRW (devPathLegacy1 b d) = .error e2 →
        openRW (devPathLegacy2 b d) = .ok f →
        Device.from_busdev openRW b d = .ok { file := f })
    ∧ (∀ e1 e2 e3, openRW (devPathPrimary b d) = .error e1 →
        openRW (devPathLegacy1 b d) = .error e2 →
        openRW (devPathLegacy2 b d) = .error e3 →
        Device.from_busdev openRW b d = .error e3)
    ∧ devPathPrimary b d = "/dev/bus/usb/" ++ pad3 b ++ "/" ++ pad3 d
    ∧ devPathLegacy1 b d = "/dev/usbdev" ++ toString b ++ "." ++ toString d
    ∧ devPathLegacy2 b d = "/proc/bus/usb/" ++ pad3 b ++ "/" ++ pad3 d := by
  refine ⟨?_, ?_, ?_, ?_, rfl, rfl, rfl⟩
  · intro f h
    rw [Device.from_busdev, h]
  · intro e1 f h1 h2
    rw [Device.from_busdev, h1, h2]
  · intro e1 e2 f h1 h2 h3
    rw [Device.from_busdev, h1, h2, h3]
  · intro e1 e2 e3 h1 h2 h3
    rw [Device.from_busdev, h1, h2, h3]

/-- Witness for C8: with a filesystem where the primary path is missing and
the first legacy path opens, `from_busdev 1 2` returns that handle. -/
theorem from_busdev_path_order_witness :
    (fun s => if s = "/dev/usbdev1.2" then (.ok 7 : Except IoError Nat)
      else .error { rawOsError := 2 }) (devPathPrimary 1 2)
        = .error { rawOsError := 2 }
    ∧ Device.from_busdev
        (fun s => if s = "/dev/usbdev1.2" then (.ok 7 : Except IoError Nat)
          else .error { rawOsError := 2 }) 1 2 = .ok { file := 7 } := by
  constructor
  · show (if devPathPrimary 1 2 = "/dev/usbdev1.2"
        then (.ok 7 : Except IoError Nat)
        else .error { rawOsError := 2 }) = .error { rawOsError := 2 }
    rw [if_neg (by decide : ¬ devPathPrimary 1 2 = "/dev/usbdev1.2")]
  · exact (from_busdev_path_order
      (fun s => if s = "/dev/usbdev1.2" then (.ok 7 : Except IoError Nat)
        else .error { rawOsError := 2 }) 1 2).2.1
      { rawOsError := 2 } 7
      (by
        show (if devPathPrimary 1 2 = "/dev/usbdev1.2"
            then (.ok 7 : Except IoError Nat)
            else .error { rawOsError := 2 }) = .error { rawOsError := 2 }
        rw [if_neg (by decide : ¬ devPathPrimary 1 2 = "/dev/usbdev1.2")])
      (by
        show (if devPathLegacy1 1 2 = "/dev/usbdev1.2"
            then (.ok 7 : Except IoError Nat)
            else .error { rawOsError := 2 }) = .ok 7
        rw [if_pos (by decide : devPathLegacy1 1 2 = "/dev/usbdev1.2")])

/-- Counterexample to C8 as stated: the first legacy path template is not
formatted from 3-digit zero-padded numbers — at bus 1, device 2 the code
formats `/dev/usbdev1.2`, not the zero-padded `/dev/usbdev001.002` the claim
describes. -/
theorem from_busdev_claim_cex :
    devPathLegacy1 1 2 = "/dev/usbdev1.2"
    ∧ devPathLegacy1 1 2 ≠ devPathLegacy1_claimed 1 2
    ∧ devPathLegacy1_claimed 1 2 = "/dev/usbdev001.002" := by
  refine ⟨by decide, by decide, by decide⟩

end Usbfs
